import Mathlib

/-!
Verification of the space-modeller IFC viewer core: the resource-lifecycle
manager (`FragmentsService`), the element classifier (`IfcFilterService`),
the statistics / material-fixing utilities (`three.utils.ts`) and the
file-name sanitizer (`ifc.model.ts`), shallowly embedded as pure Lean
functions over explicit state.
-/

set_option autoImplicit false

namespace SpaceModeller

/-! ## File-name sanitizer (`shared/models/ifc.model.ts`, `sanitizeFileName`) -/

/-- The character class `[/\\:*?"<>|]` removed by the first replace, by
code point: 47 `/`, 92 `\`, 58 `:`, 42 `*`, 63 `?`, 34 `"`, 60 `<`,
62 `>`, 124 `|`. -/
def isSpecialChar (c : Char) : Bool :=
  let n := c.toNat
  n == 47 || n == 92 || n == 58 || n == 42 || n == 63 ||
  n == 34 || n == 60 || n == 62 || n == 124

/-- The JavaScript regex class `\s` (whitespace), by code point. -/
def isJsSpace (c : Char) : Bool :=
  let n := c.toNat
  n == 0x9 || n == 0xA || n == 0xB || n == 0xC || n == 0xD || n == 0x20 ||
  n == 0xA0 || n == 0x1680 || (0x2000 ≤ n && n ≤ 0x200A) ||
  n == 0x2028 || n == 0x2029 || n == 0x202F || n == 0x205F ||
  n == 0x3000 || n == 0xFEFF

/-- One character of `.replace(/[/\\:*?"<>|]/g, '_')`. -/
def replaceSpecial (c : Char) : Char :=
  if isSpecialChar c then '_' else c

/-- `.replace(/\s+/g, '_')`: each maximal run of whitespace becomes a single
underscore.  The boolean tracks whether the previous character was part of a
whitespace run. -/
def collapseWsAux : Bool → List Char → List Char
  | _, [] => []
  | inRun, c :: cs =>
    if isJsSpace c then
      if inRun then collapseWsAux true cs else '_' :: collapseWsAux true cs
    else
      c :: collapseWsAux false cs

def collapseWs (s : List Char) : List Char :=
  collapseWsAux false s

/-- Per-character model of JavaScript `toLowerCase` (ASCII mapping; code
points outside A–Z are left unchanged, as simple Unicode lowering fixes
them or maps them to non-uppercase characters). -/
def lowerChar (c : Char) : Char :=
  if 65 ≤ c.toNat ∧ c.toNat ≤ 90 then Char.ofNat (c.toNat + 32) else c

/-- `sanitizeFileName` from `ifc.model.ts`: replace the special characters
with underscores, collapse whitespace runs to underscores, lowercase. -/
def sanitizeFileName (s : List Char) : List Char :=
  (collapseWs (s.map replaceSpecial)).map lowerChar

/-! ## Element classifier (`IfcFilterService`)

The service lives in the repository next to `ErrorHandlerService`; the
functions embedded here are `extractIfcClassFromFragment`, `getClassColor`,
`extractClasses` and `getFilterStats`. -/

/-- Character predicates for the regex `Ifc[A-Z][a-zA-Z]*`. -/
def isUpperAZ (c : Char) : Bool := 65 ≤ c.toNat && c.toNat ≤ 90

def isAlphaAZ (c : Char) : Bool :=
  (65 ≤ c.toNat && c.toNat ≤ 90) || (97 ≤ c.toNat && c.toNat ≤ 122)

/-- Try to match `Ifc[A-Z][a-zA-Z]*` at the head of the character list
(greedy star, as in JavaScript). -/
def ifcMatchAt : List Char → Option (List Char)
  | 'I' :: 'f' :: 'c' :: c :: rest =>
    if isUpperAZ c then
      some ('I' :: 'f' :: 'c' :: c :: rest.takeWhile isAlphaAZ)
    else none
  | _ => none

/-- `s.match(/Ifc[A-Z][a-zA-Z]*/)`: leftmost match, if any. -/
def ifcMatch : List Char → Option (List Char)
  | [] => none
  | c :: cs =>
    match ifcMatchAt (c :: cs) with
    | some m => some m
    | none => ifcMatch cs

def ifcMatchStr (s : String) : Option String :=
  (ifcMatch s.data).map (fun l => ⟨l⟩)

/-- `userData` fields consulted by class extraction (method 3). -/
structure UserData where
  ifcClass : Option String
  type : Option String
  name : Option String
  deriving Repr, DecidableEq

/-- The mesh of a fragment, as far as the classifier and the lifecycle
manager observe it: `userData` for classification, `visible`,
`frustumCulled` and scene membership (`parent != null`) for attachment. -/
structure FragMesh where
  userData : Option UserData
  visible : Bool
  frustumCulled : Bool
  hasParent : Bool
  deriving Repr, DecidableEq

/-- One entry of `model.items`: the fields read by
`extractIfcClassFromFragment` plus the optional mesh. -/
structure Fragment where
  name : Option String
  id : Option String
  mesh : Option FragMesh
  types : List String
  fragmentKeys : List String
  deriving Repr, DecidableEq

/-- Truthiness of an optional string in JavaScript: present and nonempty. -/
def truthy : Option String → Bool
  | some s => s ≠ ""
  | none => false

/-- `extractIfcClassFromFragment`: ordered fallback chain over the
fragment's metadata; always yields a class name (`"IfcElement"` when no
pattern matches anywhere). -/
def extractIfcClassFromFragment (fragment : Fragment) (fragmentId : String) : String :=
  -- Method 1: fragment.name
  match (if truthy fragment.name then ifcMatchStr (fragment.name.getD "") else none) with
  | some m => m
  | none =>
  -- Method 2: fragment.id
  match (if truthy fragment.id then ifcMatchStr (fragment.id.getD "") else none) with
  | some m => m
  | none =>
  -- Method 3: fragment.mesh.userData
  match userDataClass fragment.mesh with
  | some m => m
  | none =>
  -- Method 4: fragment.types (first entry when nonempty)
  match (match fragment.types with
         | t :: _ => ifcMatchStr t
         | [] => none) with
  | some m => m
  | none =>
  -- Method 5: first key of fragment.fragments
  match (match fragment.fragmentKeys with
         | k :: _ => ifcMatchStr k
         | [] => none) with
  | some m => m
  | none =>
  -- Fallback: the fragment id itself, then the generic class
  match (if fragmentId ≠ "" then ifcMatchStr fragmentId else none) with
  | some m => m
  | none => "IfcElement"
where
  userDataClass : Option FragMesh → Option String
    | some mesh =>
      match mesh.userData with
      | some ud =>
        if truthy ud.ifcClass then ud.ifcClass
        else match (if truthy ud.type then ifcMatchStr (ud.type.getD "") else none) with
        | some m => some m
        | none =>
          match (if truthy ud.name then ifcMatchStr (ud.name.getD "") else none) with
          | some m => some m
          | none => none
      | none => none
    | none => none

/-- `getClassColor`: fixed palette with a fallback color. -/
def getClassColor (className : String) : String :=
  if className = "IfcWall" then "#FF6B6B"
  else if className = "IfcWallStandardCase" then "#FF6B6B"
  else if className = "IfcDoor" then "#4ECDC4"
  else if className = "IfcWindow" then "#95E1D3"
  else if className = "IfcSlab" then "#F38181"
  else if className = "IfcRoof" then "#AA96DA"
  else if className = "IfcStair" then "#FCBAD3"
  else if className = "IfcColumn" then "#A8E6CF"
  else if className = "IfcBeam" then "#FFD3B6"
  else if className = "IfcSpace" then "#FFAAA5"
  else if className = "IfcFurniture" then "#F9CA24"
  else if className = "IfcCovering" then "#BDC3C7"
  else if className = "IfcRailing" then "#74B9FF"
  else if className = "IfcPlate" then "#E67E22"
  else if className = "IfcMember" then "#9B59B6"
  else if className = "IfcBuildingElementProxy" then "#95A5A6"
  else "#7F8C8D"

/-- `IfcClassInfo` from the filter service. -/
structure IfcClassInfo where
  name : String
  count : Nat
  visible : Bool
  color : String
  deriving Repr, DecidableEq

/-- One `classMap` update inside the `extractClasses` loop: bump the count
of an existing class, or append a fresh entry (default `visible := true`,
deterministic color).  The list keeps JavaScript `Map` insertion order. -/
def addClass (acc : List IfcClassInfo) (cls : String) : List IfcClassInfo :=
  if acc.any (fun i => i.name = cls) then
    acc.map (fun i => if i.name = cls then { i with count := i.count + 1 } else i)
  else
    acc ++ [{ name := cls, count := 1, visible := true, color := getClassColor cls }]

/-- `extractClasses` over a model's `items`, returning the class list in
insertion order (the signal stores the same map).  An absent model yields
the empty list. -/
def extractClasses (items : Option (List (String × Fragment))) : List IfcClassInfo :=
  match items with
  | none => []
  | some its =>
    its.foldl (fun acc p => addClass acc (extractIfcClassFromFragment p.2 p.1)) []

/-- Result record of `getFilterStats`. -/
structure FilterStats where
  totalClasses : Nat
  visibleClasses : Nat
  hiddenClasses : Nat
  totalElements : Nat
  visibleElements : Nat
  deriving Repr, DecidableEq

/-- `getFilterStats`: pure aggregation over the class list held by the
`ifcClasses` signal. -/
def getFilterStats (classes : List IfcClassInfo) : FilterStats :=
  let visible := classes.filter (fun c => c.visible)
  let hidden := classes.filter (fun c => !c.visible)
  { totalClasses := classes.length
    visibleClasses := visible.length
    hiddenClasses := hidden.length
    totalElements := classes.foldl (fun sum c => sum + c.count) 0
    visibleElements := visible.foldl (fun sum c => sum + c.count) 0 }

/-! ## Three.js utilities (`shared/utils/three.utils.ts`)

The object tree is embedded as a rose tree of nodes; `traverse` visits the
root and every descendant, which corresponds to flattening the tree in
preorder.  Bounding boxes and camera math are floating-point geometry and
are not modelled; the claims under verification concern only the counting
and material-fixing logic. -/

/-- A buffer attribute: only its element count is observed. -/
structure BufAttr where
  count : Nat
  deriving Repr, DecidableEq

/-- A geometry: optional position attribute and optional index buffer. -/
structure Geom where
  position : Option BufAttr
  index : Option BufAttr
  deriving Repr, DecidableEq

/-- The material fields read and written by `fixMaterials`.
`side` uses the Three.js encoding: FrontSide = 0, BackSide = 1,
DoubleSide = 2. -/
structure Mat where
  visible : Bool
  side : Nat
  transparent : Bool
  opacity : ℚ
  needsUpdate : Bool
  deriving Repr, DecidableEq

/-- Whether a node passes the `instanceof THREE.Mesh` /
`instanceof THREE.InstancedMesh` checks. -/
inductive NodeKind where
  | mesh
  | instancedMesh
  | other
  deriving Repr, DecidableEq

/-- The per-node data of a scene-graph object.  `material` is the
normalised form of `Array.isArray(child.material) ? child.material :
[child.material]`, with `none` for a null slot. -/
structure NodeData where
  kind : NodeKind
  visible : Bool
  geometry : Option Geom
  material : List (Option Mat)
  deriving Repr, DecidableEq

/-- A Three.js object tree. -/
inductive Obj3D where
  | node : NodeData → List Obj3D → Obj3D
  deriving Repr

def NodeData.isMeshLike (d : NodeData) : Bool :=
  d.kind = NodeKind.mesh || d.kind = NodeKind.instancedMesh

mutual

/-- Preorder flattening: the node sequence visited by `object.traverse`. -/
def Obj3D.flatten : Obj3D → List NodeData
  | .node d cs => d :: flattenList cs

def flattenList : List Obj3D → List NodeData
  | [] => []
  | o :: os => o.flatten ++ flattenList os

end

/-- Statistics record returned by `calculateModelStatistics` (bounding box
omitted: floating-point geometry).  `faceCount` is the `Math.floor`ed
total, hence an integer. -/
structure ModelStats where
  fragmentCount : Nat
  meshCount : Nat
  vertexCount : Nat
  faceCount : ℤ
  deriving Repr, DecidableEq

/-- The body of the `traverse` callback of `calculateModelStatistics` for
one node, as contributions `(meshes, vertices, faces, fragments)`; the
face contribution is the exact quotient the JavaScript accumulator sums
before the final floor. -/
def statContribution (d : NodeData) : Nat × Nat × ℚ × Nat :=
  if d.isMeshLike then
    match d.geometry with
    | some g =>
      let v := (g.position.map BufAttr.count).getD 0
      let f : ℚ :=
        match g.index with
        | some i => (i.count : ℚ) / 3
        | none =>
          match g.position with
          | some p => (p.count : ℚ) / 3
          | none => 0
      let frag := if d.kind = NodeKind.instancedMesh then 1 else 0
      (1, v, f, frag)
    | none => (1, 0, 0, 0)
  else
    (0, 0, 0, 0)

/-- `calculateModelStatistics`: single traversal accumulating the four
counters, flooring the face total at the end. -/
def calculateModelStatistics (o : Obj3D) : ModelStats :=
  let acc := o.flatten.foldl
    (fun (a : Nat × Nat × ℚ × Nat) d =>
      let c := statContribution d
      (a.1 + c.1, a.2.1 + c.2.1, a.2.2.1 + c.2.2.1, a.2.2.2 + c.2.2.2))
    (0, 0, 0, 0)
  { meshCount := acc.1
    vertexCount := acc.2.1
    faceCount := ⌊acc.2.2.1⌋
    fragmentCount := acc.2.2.2 }

/-- `fixMaterials` on one (non-null) material: the `needsFix` test and the
applied corrections, returning the updated material and whether the fix
counter was incremented. -/
def fixOneMaterial (m : Mat) : Mat × Nat :=
  let needsFix := !m.visible || m.side == 0 || (m.transparent && m.opacity == 0)
  if needsFix then
    let m1 := { m with visible := true, side := 2, needsUpdate := true }
    let m2 :=
      if m1.transparent && m1.opacity == 0 then
        { m1 with opacity := 1, transparent := false }
      else m1
    (m2, 1)
  else (m, 0)

/-- `fixMaterials` on a node's material slots (null slots are skipped and
never counted). -/
def fixMaterialList : List (Option Mat) → List (Option Mat) × Nat
  | [] => ([], 0)
  | none :: ms =>
    let (ms', n) := fixMaterialList ms
    (none :: ms', n)
  | some m :: ms =>
    let (m', k) := fixOneMaterial m
    let (ms', n) := fixMaterialList ms
    (some m' :: ms', k + n)

/-- `fixMaterials` on one node: fix the materials of mesh-like nodes and
force the node visible, counting each correction. -/
def fixNode (d : NodeData) : NodeData × Nat :=
  if d.isMeshLike then
    let (ms, n) := fixMaterialList d.material
    let (vis, k) := if !d.visible then (true, 1) else (d.visible, 0)
    ({ d with material := ms, visible := vis }, n + k)
  else
    (d, 0)

mutual

/-- `fixMaterials(object)`: traversal applying `fixNode` to the root and
all descendants, summing the correction count. -/
def fixMaterials : Obj3D → Obj3D × Nat
  | .node d cs =>
    let (d', n) := fixNode d
    let (cs', k) := fixMaterialsList cs
    (.node d' cs', n + k)

def fixMaterialsList : List Obj3D → List Obj3D × Nat
  | [] => ([], 0)
  | o :: os =>
    let (o', n) := fixMaterials o
    let (os', k) := fixMaterialsList os
    (o' :: os', n + k)

end

/-! ## Resource lifecycle manager (`FragmentsService`)

State is passed explicitly: `loadedModels` is the service's cache (a
JavaScript `Map`, i.e. an insertion-ordered association list) and
`managerList` is the external `fragmentsManager.list` registry (absent
when the manager reference is null).  The external engine is a parameter:
`loadIfc` takes the outcome of `ifcLoader.load` and `exportFragment` the
outcome of `model.getBuffer()`, each an `Except` carrying the stringified
error on the throwing path.  Wall-clock durations and console logging are
not modelled. -/

/-- `model.object`: only scene membership is observed. -/
structure ObjHandle where
  hasParent : Bool
  deriving Repr, DecidableEq

/-- A `FRAGS.FragmentsModel` as observed by the service: identifier,
optional root object, the `items` map, and the shape of its `dispose`
member (`hasDispose` for the `typeof model.dispose === 'function'` check,
`disposeThrows` for a disposal call that throws). -/
structure EngineModel where
  modelId : String
  object : Option ObjHandle
  items : List (String × Fragment)
  hasDispose : Bool
  disposeThrows : Bool
  deriving Repr, DecidableEq

/-- JavaScript `Map.get`: value of the (unique) entry with the given key. -/
def mapGet : List (String × EngineModel) → String → Option EngineModel
  | [], _ => none
  | p :: ps, k => if p.1 = k then some p.2 else mapGet ps k

/-- JavaScript `Map.set`: overwrite in place, or append a new entry. -/
def mapSet (l : List (String × EngineModel)) (k : String) (v : EngineModel) :
    List (String × EngineModel) :=
  if l.any (fun p => p.1 = k) then
    l.map (fun p => if p.1 = k then (k, v) else p)
  else l ++ [(k, v)]

/-- JavaScript `Map.delete`: drop the entry with the given key. -/
def mapDelete : List (String × EngineModel) → String → List (String × EngineModel)
  | [], _ => []
  | p :: ps, k => if p.1 = k then mapDelete ps k else p :: mapDelete ps k

/-- The mutable state of `FragmentsService`. -/
structure ServiceState where
  initialized : Bool
  loadedModels : List (String × EngineModel)
  managerList : Option (List (String × EngineModel))
  deriving Repr, DecidableEq

/-- `getModel`: cache lookup with fallback to `fragmentsManager.list`; a
fallback hit is written back into the cache. -/
def getModel (st : ServiceState) (modelId : String) :
    Option EngineModel × ServiceState :=
  match mapGet st.loadedModels modelId with
  | some m => (some m, st)
  | none =>
    match st.managerList with
    | some ml =>
      match mapGet ml modelId with
      | some m => (some m, { st with loadedModels := mapSet st.loadedModels modelId m })
      | none => (none, st)
    | none => (none, st)

/-- `getAllModels`. -/
def getAllModels (st : ServiceState) : List EngineModel :=
  st.loadedModels.map (fun p => p.2)

/-- One iteration of the `addFragmentsToScene` loop: attach the fragment
mesh when it exists and has no parent yet, marking it visible and
frustum-culled. -/
def attachFragment (f : Fragment) : Fragment × Nat :=
  match f.mesh with
  | some mesh =>
    if !mesh.hasParent then
      ({ f with mesh := some { mesh with hasParent := true, visible := true, frustumCulled := true } }, 1)
    else (f, 0)
  | none => (f, 0)

def attachItems : List (String × Fragment) → List (String × Fragment) × Nat
  | [] => ([], 0)
  | (k, f) :: rest =>
    let (f', n) := attachFragment f
    let (rest', m) := attachItems rest
    ((k, f') :: rest', n + m)

/-- `addFragmentsToScene`: attach every fragment mesh; when `items` is
empty fall back to attaching `model.object`. -/
def addFragmentsToScene (m : EngineModel) : EngineModel × Nat :=
  if m.items.length > 0 then
    let (items', n) := attachItems m.items
    ({ m with items := items' }, n)
  else
    match m.object with
    | some obj =>
      if !obj.hasParent then
        ({ m with object := some { hasParent := true } }, 1)
      else (m, 0)
    | none => (m, 0)

/-- Message wrapper of the `loadIfc` catch block. -/
def wrapLoadError (name msg : String) : String :=
  "Failed to load IFC file \"" ++ name ++ "\": " ++ msg

/-- `loadIfc`.  `onProgress` is the caller's callback (it may throw, which
the catch block wraps like any other failure); `engine` is the outcome of
`ifcLoader.load`, `.ok none` standing for a null model.  The returned
state reflects every mutation performed before a failure, since JavaScript
exceptions do not roll anything back. -/
def loadIfc (st : ServiceState) (buffer : List Nat) (name : String)
    (onProgress : Nat → Except String Unit)
    (engine : Except String (Option EngineModel)) :
    Except String String × ServiceState :=
  if !st.initialized then
    (.error "FragmentsService not initialized. Call initialize() first.", st)
  else if buffer.length = 0 then
    (.error "Invalid buffer: empty or null", st)
  else if name = "" then
    (.error "Invalid model name", st)
  else
    match onProgress 0 with
    | .error e => (.error (wrapLoadError name e), st)
    | .ok _ =>
      match engine with
      | .error e => (.error (wrapLoadError name e), st)
      | .ok none =>
        (.error (wrapLoadError name "Error: Failed to load IFC model: model is null or has no ID"), st)
      | .ok (some model) =>
        if model.modelId = "" then
          (.error (wrapLoadError name "Error: Failed to load IFC model: model is null or has no ID"), st)
        else
          let (model', _addedCount) := addFragmentsToScene model
          let st1 := { st with loadedModels := mapSet st.loadedModels model.modelId model' }
          match onProgress 100 with
          | .error e => (.error (wrapLoadError name e), st1)
          | .ok _ => (.ok model.modelId, st1)

/-- The scene-detachment part of `removeModel`: clear the parent of
`model.object` and of every fragment mesh. -/
def detachModel (m : EngineModel) : EngineModel :=
  { m with
    object := m.object.map (fun o => { o with hasParent := false })
    items := m.items.map (fun p =>
      (p.1, { p.2 with mesh := p.2.mesh.map (fun mesh => { mesh with hasParent := false }) })) }

/-- Write a mutated model object back wherever the same JavaScript object
is referenced (cache and manager registry alias it). -/
def overwriteModel (st : ServiceState) (k : String) (m : EngineModel) : ServiceState :=
  { st with
    loadedModels := st.loadedModels.map (fun p => if p.1 = k then (k, m) else p)
    managerList := st.managerList.map (fun ml =>
      ml.map (fun p => if p.1 = k then (k, m) else p)) }

/-- `removeModel`: look the model up, detach it from the scene, dispose
it, then delete the cache entry and return `true`.  The whole body is in a
try/catch: a throwing `dispose` lands in the catch, which logs a warning
and returns `false` — the cache delete that follows the dispose call is
then never reached. -/
def removeModel (st : ServiceState) (modelId : String) : Bool × ServiceState :=
  let (mOpt, st1) := getModel st modelId
  match mOpt with
  | none => (false, st1)
  | some m =>
    let m1 := detachModel m
    let st2 := overwriteModel st1 modelId m1
    if m.hasDispose && m.disposeThrows then
      (false, st2)
    else
      (true, { st2 with loadedModels := mapDelete st2.loadedModels modelId })

/-- `ExportResult` (`ifc.model.ts`), without the wall-clock duration. -/
structure ExportResult where
  success : Bool
  data : Option (List Nat)
  fileSize : Option Nat
  error : Option String
  deriving Repr, DecidableEq

/-- `exportFragment`: result-object API.  `engineBuffer` is the outcome of
`model.getBuffer()`; its throwing path is captured by the catch block into
a failure result, never rethrown. -/
def exportFragment (st : ServiceState) (modelId : String)
    (engineBuffer : Except String (List Nat)) : ExportResult × ServiceState :=
  let (mOpt, st1) := getModel st modelId
  match mOpt with
  | none =>
    ({ success := false, data := none, fileSize := none,
       error := some ("Model with ID " ++ modelId ++ " not found") }, st1)
  | some _ =>
    match engineBuffer with
    | .ok buf =>
      ({ success := true, data := some buf, fileSize := some buf.length, error := none }, st1)
    | .error e =>
      ({ success := false, data := none, fileSize := none, error := some e }, st1)

/-- Whether any of a model's geometry is attached to the scene. -/
def EngineModel.attached (m : EngineModel) : Bool :=
  (match m.object with | some o => o.hasParent | none => false) ||
  m.items.any (fun p => match p.2.mesh with | some mesh => mesh.hasParent | none => false)

/-- The viewer component's load path (`IfcViewerComponent.loadIfcFile`):
`clearPreviousModel` first calls `removeModel` on the current model's
fragment UUID (when one exists), then the component calls
`fragmentsService.loadIfc`. -/
def loadIfcFileFlow (st : ServiceState) (current : Option String)
    (buffer : List Nat) (name : String)
    (onProgress : Nat → Except String Unit)
    (engine : Except String (Option EngineModel)) :
    Except String String × ServiceState :=
  let st1 :=
    match current with
    | some uuid => (removeModel st uuid).2
    | none => st
  loadIfc st1 buffer name onProgress engine

/-! ## Theorems -/

/-! ### Character-level lemmas for the sanitizer -/

theorem toNat_ofNat_valid (n : Nat) (h : n.isValidChar) : (Char.ofNat n).toNat = n := by
  unfold Char.ofNat
  rw [dif_pos h]
  rfl

theorem lowerChar_toNat (c : Char) :
    (lowerChar c).toNat = if 65 ≤ c.toNat ∧ c.toNat ≤ 90 then c.toNat + 32 else c.toNat := by
  unfold lowerChar
  split
  · next h => exact toNat_ofNat_valid _ (Or.inl (by omega))
  · rfl

theorem lowerChar_eq_self_of_not_upper (c : Char) (h : ¬(65 ≤ c.toNat ∧ c.toNat ≤ 90)) :
    lowerChar c = c := by
  unfold lowerChar
  rw [if_neg h]

theorem lowerChar_idem (c : Char) : lowerChar (lowerChar c) = lowerChar c := by
  by_cases h : 65 ≤ c.toNat ∧ c.toNat ≤ 90
  · have ht : (lowerChar c).toNat = c.toNat + 32 := by rw [lowerChar_toNat, if_pos h]
    exact lowerChar_eq_self_of_not_upper _ (by omega)
  · rw [lowerChar_eq_self_of_not_upper c h]
    exact lowerChar_eq_self_of_not_upper c h

theorem isSpecialChar_eq_false_iff (c : Char) :
    isSpecialChar c = false ↔
      c.toNat ≠ 47 ∧ c.toNat ≠ 92 ∧ c.toNat ≠ 58 ∧ c.toNat ≠ 42 ∧ c.toNat ≠ 63 ∧
      c.toNat ≠ 34 ∧ c.toNat ≠ 60 ∧ c.toNat ≠ 62 ∧ c.toNat ≠ 124 := by
  simp [isSpecialChar, and_assoc]

theorem isJsSpace_eq_false_of_lower (c : Char) (h : isJsSpace c = false) :
    isJsSpace (lowerChar c) = false := by
  by_cases hc : 65 ≤ c.toNat ∧ c.toNat ≤ 90
  · have ht : (lowerChar c).toNat = c.toNat + 32 := by rw [lowerChar_toNat, if_pos hc]
    simp only [isJsSpace, ht]
    simp only [Bool.or_eq_false_iff, beq_eq_false_iff_ne, ne_eq, Bool.and_eq_false_iff,
      decide_eq_false_iff_not, not_le]
    omega
  · have ht : (lowerChar c).toNat = c.toNat := by rw [lowerChar_toNat, if_neg hc]
    simpa only [isJsSpace, ht] using h

theorem isSpecialChar_eq_false_of_lower (c : Char) (h : isSpecialChar c = false) :
    isSpecialChar (lowerChar c) = false := by
  by_cases hc : 65 ≤ c.toNat ∧ c.toNat ≤ 90
  · have ht : (lowerChar c).toNat = c.toNat + 32 := by rw [lowerChar_toNat, if_pos hc]
    simp only [isSpecialChar_eq_false_iff, ht]
    omega
  · have ht : (lowerChar c).toNat = c.toNat := by rw [lowerChar_toNat, if_neg hc]
    rw [isSpecialChar_eq_false_iff, ht, ← isSpecialChar_eq_false_iff]
    exact h

theorem isSpecialChar_replaceSpecial (c : Char) :
    isSpecialChar (replaceSpecial c) = false := by
  unfold replaceSpecial
  split
  · decide
  · next h => simpa using h

theorem mem_collapseWsAux {b : Bool} {s : List Char} {c : Char}
    (h : c ∈ collapseWsAux b s) : c = '_' ∨ (c ∈ s ∧ isJsSpace c = false) := by
  induction s generalizing b with
  | nil => simp [collapseWsAux] at h
  | cons d ds ih =>
    rw [collapseWsAux] at h
    by_cases hd : isJsSpace d
    · rw [if_pos hd] at h
      by_cases hb : b
      · rw [if_pos hb] at h
        rcases ih h with h1 | ⟨h2, h3⟩
        · exact Or.inl h1
        · exact Or.inr ⟨List.mem_cons_of_mem _ h2, h3⟩
      · rw [if_neg hb] at h
        rcases List.mem_cons.mp h with h1 | h1
        · exact Or.inl h1
        · rcases ih h1 with h2 | ⟨h3, h4⟩
          · exact Or.inl h2
          · exact Or.inr ⟨List.mem_cons_of_mem _ h3, h4⟩
    · rw [if_neg hd] at h
      rcases List.mem_cons.mp h with h1 | h1
      · subst h1
        exact Or.inr ⟨List.mem_cons_self _ _, by simpa using hd⟩
      · rcases ih h1 with h2 | ⟨h3, h4⟩
        · exact Or.inl h2
        · exact Or.inr ⟨List.mem_cons_of_mem _ h3, h4⟩

theorem collapseWsAux_eq_self (b : Bool) (s : List Char)
    (h : ∀ c ∈ s, isJsSpace c = false) : collapseWsAux b s = s := by
  induction s generalizing b with
  | nil => rfl
  | cons d ds ih =>
    rw [collapseWsAux, if_neg (by simp [h d (List.mem_cons_self _ _)]),
      ih false (fun c hc => h c (List.mem_cons_of_mem _ hc))]

theorem map_replaceSpecial_eq_self (s : List Char)
    (h : ∀ c ∈ s, isSpecialChar c = false) : s.map replaceSpecial = s := by
  induction s with
  | nil => rfl
  | cons d ds ih =>
    rw [List.map_cons, ih (fun c hc => h c (List.mem_cons_of_mem _ hc))]
    have hd := h d (List.mem_cons_self _ _)
    unfold replaceSpecial
    rw [if_neg (by simp [hd])]

theorem map_lowerChar_idem (s : List Char) :
    (s.map lowerChar).map lowerChar = s.map lowerChar := by
  induction s with
  | nil => rfl
  | cons d ds ih => simp [List.map_cons, ih, lowerChar_idem]

/-- Every character of a sanitized name is neither special nor whitespace. -/
theorem sanitizeFileName_chars (s : List Char) (c : Char)
    (h : c ∈ sanitizeFileName s) : isSpecialChar c = false ∧ isJsSpace c = false := by
  unfold sanitizeFileName at h
  rcases List.mem_map.mp h with ⟨d, hd, rfl⟩
  rcases mem_collapseWsAux hd with h1 | ⟨h2, h3⟩
  · subst h1
    constructor <;> decide
  · rcases List.mem_map.mp h2 with ⟨e, _, rfl⟩
    exact ⟨isSpecialChar_eq_false_of_lower _ (isSpecialChar_replaceSpecial e),
      isJsSpace_eq_false_of_lower _ h3⟩

/-- C10: the display-name sanitizer is idempotent — one pass already
removes every path separator and special character, collapses whitespace
runs to underscores and lowercases, so a second pass is the identity on
its output. -/
theorem claim_C10_sanitizeFileName_idempotent (s : List Char) :
    sanitizeFileName (sanitizeFileName s) = sanitizeFileName s := by
  have hchars := sanitizeFileName_chars s
  conv_lhs => rw [sanitizeFileName]
  rw [map_replaceSpecial_eq_self _ (fun c hc => (hchars c hc).1)]
  rw [collapseWs, collapseWsAux_eq_self _ _ (fun c hc => (hchars c hc).2)]
  rw [sanitizeFileName, map_lowerChar_idem]

/-! ### Filter statistics (C9) -/

theorem foldl_add_count (l : List IfcClassInfo) (n : Nat) :
    l.foldl (fun sum c => sum + c.count) n = n + (l.map (fun c => c.count)).sum := by
  induction l generalizing n with
  | nil => simp
  | cons c cs ih => simp [ih, Nat.add_assoc]

theorem sum_count_filter_le (p : IfcClassInfo → Bool) (l : List IfcClassInfo) :
    ((l.filter p).map (fun c => c.count)).sum ≤ (l.map (fun c => c.count)).sum := by
  induction l with
  | nil => simp
  | cons c cs ih =>
    by_cases h : p c <;> simp [List.filter_cons, h] <;> omega

/-- C9: for every state of the classification index, `getFilterStats`
partitions the classes (visible + hidden = total), sums element counts,
counts visible elements over visible classes only (hence at most the
total), and yields all zeroes on the empty index. -/
theorem claim_C9_getFilterStats_consistent (classes : List IfcClassInfo) :
    (getFilterStats classes).visibleClasses + (getFilterStats classes).hiddenClasses
        = (getFilterStats classes).totalClasses ∧
    (getFilterStats classes).totalElements = (classes.map (fun c => c.count)).sum ∧
    (getFilterStats classes).visibleElements
        = ((classes.filter (fun c => c.visible)).map (fun c => c.count)).sum ∧
    (getFilterStats classes).visibleElements ≤ (getFilterStats classes).totalElements ∧
    getFilterStats [] = ⟨0, 0, 0, 0, 0⟩ := by
  refine ⟨?_, ?_, ?_, ?_, rfl⟩
  · simp only [getFilterStats]
    exact (List.length_eq_length_filter_add (l := classes) (fun c => c.visible)).symm
  · simp only [getFilterStats]
    rw [foldl_add_count]
    omega
  · simp only [getFilterStats]
    rw [foldl_add_count]
    omega
  · simp only [getFilterStats]
    rw [foldl_add_count, foldl_add_count]
    have := sum_count_filter_le (fun c => c.visible) classes
    omega

/-! ### Default visibility after class extraction (C1) -/

/-- A fragment whose `name` field carries the given IFC class tag,
mirroring the mock fragments of `ifc-filter.service.spec.ts`. -/
def taggedFragment (nm fid : String) : Fragment :=
  { name := some nm, id := some fid,
    mesh := some { userData := none, visible := true, frustumCulled := false, hasParent := false },
    types := [], fragmentKeys := [] }

/-- C1: evaluation of `extractClasses` at a model containing an `IfcSpace`
fragment.  The code marks **every** discovered class `visible := true`,
including `IfcSpace` — the repository's own test
(`ifc-filter.service.spec.ts`, "should set IfcSpace as hidden by
default") and the spec instead require `IfcSpace` to come out hidden, so
the code contradicts its own test suite here. -/
theorem claim_C1_extractClasses_ifcSpace_left_visible :
    (extractClasses (some [("frag-1", taggedFragment "IfcSpace" "frag-1"),
                           ("frag-2", taggedFragment "IfcWall" "frag-2")])).map
        (fun i => (i.name, i.visible))
      = [("IfcSpace", true), ("IfcWall", true)] := by
  decide

/-! ### Input validation of `loadIfc` (C6) -/

/-- C6: on an initialized service, `loadIfc` with an empty buffer rejects
with the validation message "Invalid buffer: empty or null" (mentioning
"empty"), `loadIfc` with an empty name rejects with "Invalid model name"
(mentioning "name"), and in both cases the whole service state — in
particular the model cache — is returned unchanged. -/
theorem claim_C6_loadIfc_validation (st : ServiceState) (h : st.initialized = true)
    (buf : List Nat) (name : String) (onProgress : Nat → Except String Unit)
    (engine : Except String (Option EngineModel)) (hbuf : buf ≠ []) :
    loadIfc st [] name onProgress engine = (.error "Invalid buffer: empty or null", st) ∧
    "empty".data <:+: "Invalid buffer: empty or null".data ∧
    loadIfc st buf "" onProgress engine = (.error "Invalid model name", st) ∧
    "name".data <:+: "Invalid model name".data := by
  refine ⟨?_, by decide, ?_, by decide⟩
  · simp [loadIfc, h]
  · have : buf.length ≠ 0 := fun hl => hbuf (List.length_eq_zero.mp hl)
    simp [loadIfc, h, this]

theorem claim_C6_loadIfc_validation_witness :
    (⟨true, [], none⟩ : ServiceState).initialized = true ∧ ([0] : List Nat) ≠ [] ∧
    loadIfc ⟨true, [], none⟩ [] "m" (fun _ => .ok ()) (.error "e")
      = (.error "Invalid buffer: empty or null", ⟨true, [], none⟩) ∧
    loadIfc ⟨true, [], none⟩ [0] "" (fun _ => .ok ()) (.error "e")
      = (.error "Invalid model name", ⟨true, [], none⟩) := by
  refine ⟨rfl, by decide, ?_, ?_⟩
  · exact (claim_C6_loadIfc_validation ⟨true, [], none⟩ rfl [0] "m" (fun _ => .ok ())
      (.error "e") (by decide)).1
  · exact (claim_C6_loadIfc_validation ⟨true, [], none⟩ rfl [0] "" (fun _ => .ok ())
      (.error "e") (by decide)).2.2.1

/-! ### `exportFragment` result-object semantics (C7) -/

/-- C7: `exportFragment` is a total function into result objects (the
embedding returns an `ExportResult` for every input — the one engine call
sits inside the catch).  For an id that is in neither the cache nor the
manager registry it returns `success = false` with an error message
containing "not found"; when the model exists but the engine's
serialization throws, it returns `success = false` carrying the engine's
error message. -/
theorem claim_C7_exportFragment_result_object (st : ServiceState) (modelId : String)
    (engineBuffer : Except String (List Nat)) :
    ((getModel st modelId).1 = none →
      (exportFragment st modelId engineBuffer).1.success = false ∧
      "not found".data <:+:
        ((exportFragment st modelId engineBuffer).1.error.getD "").data) ∧
    (∀ e, engineBuffer = .error e → (getModel st modelId).1 ≠ none →
      (exportFragment st modelId engineBuffer).1.success = false ∧
      (exportFragment st modelId engineBuffer).1.error = some e) := by
  rcases hg : getModel st modelId with ⟨mOpt, st1⟩
  constructor
  · intro hnone
    have hmo : mOpt = none := hnone
    subst hmo
    have hexp : exportFragment st modelId engineBuffer
        = ({ success := false, data := none, fileSize := none,
             error := some ("Model with ID " ++ modelId ++ " not found") }, st1) := by
      unfold exportFragment
      rw [hg]
    rw [hexp]
    refine ⟨rfl, ?_⟩
    exact ⟨"Model with ID ".data ++ modelId.data ++ [' '], [], by simp [String.data_append]⟩
  · intro e he hsome
    have hsome' : mOpt ≠ none := hsome
    rcases hmo : mOpt with _ | m
    · exact absurd hmo hsome'
    · have hexp : exportFragment st modelId engineBuffer
          = ({ success := false, data := none, fileSize := none, error := some e }, st1) := by
        unfold exportFragment
        rw [hg, hmo, he]
      rw [hexp]
      exact ⟨rfl, rfl⟩

theorem claim_C7_exportFragment_witness :
    ((getModel ⟨true, [], none⟩ "nope").1 = none ∧
      (exportFragment ⟨true, [], none⟩ "nope" (.ok [1])).1.success = false ∧
      "not found".data <:+:
        ((exportFragment ⟨true, [], none⟩ "nope" (.ok [1])).1.error.getD "").data) ∧
    ((exportFragment
        ⟨true, [("m", ⟨"m", none, [], false, false⟩)], none⟩ "m"
        (.error "ser fail")).1.success = false ∧
      (exportFragment
        ⟨true, [("m", ⟨"m", none, [], false, false⟩)], none⟩ "m"
        (.error "ser fail")).1.error = some "ser fail") := by
  constructor
  · exact ⟨by decide,
      (claim_C7_exportFragment_result_object ⟨true, [], none⟩ "nope" (.ok [1])).1 (by decide)⟩
  · exact (claim_C7_exportFragment_result_object
      ⟨true, [("m", ⟨"m", none, [], false, false⟩)], none⟩ "m" (.error "ser fail")).2
      "ser fail" rfl (by decide)

/-! ### Cache-map lemmas -/

theorem mapGet_delete_self (l : List (String × EngineModel)) (k : String) :
    mapGet (mapDelete l k) k = none := by
  induction l with
  | nil => rfl
  | cons p ps ih =>
    by_cases h : p.1 = k
    · simpa [mapDelete, h] using ih
    · simpa [mapDelete, mapGet, h] using ih

theorem mapGet_overwrite_self (l : List (String × EngineModel)) (k : String)
    (v m : EngineModel) (h : mapGet l k = some m) :
    mapGet (l.map (fun p => if p.1 = k then (k, v) else p)) k = some v := by
  induction l with
  | nil => simp [mapGet] at h
  | cons p ps ih =>
    by_cases hk : p.1 = k
    · simp [mapGet, hk]
    · rw [mapGet, if_neg hk] at h
      simp only [List.map_cons, if_neg hk]
      rw [mapGet, if_neg hk]
      exact ih h

theorem mapGet_append_single (l : List (String × EngineModel)) (k : String)
    (v : EngineModel) (h : ∀ p ∈ l, p.1 ≠ k) :
    mapGet (l ++ [(k, v)]) k = some v := by
  induction l with
  | nil => simp [mapGet]
  | cons p ps ih =>
    rw [List.cons_append, mapGet, if_neg (h p (List.mem_cons_self _ _))]
    exact ih (fun q hq => h q (List.mem_cons_of_mem _ hq))

theorem mapGet_ne_none_of_mem (l : List (String × EngineModel)) (k : String)
    (p : String × EngineModel) (hp : p ∈ l) (hpk : p.1 = k) : mapGet l k ≠ none := by
  induction l with
  | nil => simp at hp
  | cons q qs ih =>
    rw [mapGet]
    by_cases hq : q.1 = k
    · simp [hq]
    · rw [if_neg hq]
      rcases List.mem_cons.mp hp with h1 | h1
      · subst h1
        exact absurd hpk hq
      · exact ih h1

theorem mapGet_set_self (l : List (String × EngineModel)) (k : String) (v : EngineModel) :
    mapGet (mapSet l k v) k = some v := by
  unfold mapSet
  split
  · next hany =>
    rcases List.any_eq_true.mp hany with ⟨p, hp, hpk⟩
    have hpk' : p.1 = k := by simpa using hpk
    rcases hm : mapGet l k with _ | m
    · exact absurd hm (mapGet_ne_none_of_mem l k p hp hpk')
    · exact mapGet_overwrite_self l k v m hm
  · next hany =>
    refine mapGet_append_single l k v ?_
    intro p hp hpk
    exact hany (List.any_eq_true.mpr ⟨p, hp, by simp [hpk]⟩)

/-! ### `removeModel` under a throwing dispose (C2) -/

/-- An attached fragment mesh. -/
def attachedMesh : FragMesh :=
  { userData := none, visible := true, frustumCulled := true, hasParent := true }

/-- A metadata-free fragment carrying an attached mesh. -/
def plainFragment : Fragment :=
  { name := none, id := none, mesh := some attachedMesh, types := [], fragmentKeys := [] }

/-- A cached model whose `dispose` member throws when awaited. -/
def stickyModel : EngineModel :=
  { modelId := "m1", object := none, items := [("f1", plainFragment)],
    hasDispose := true, disposeThrows := true }

/-- C2 counterexample: with `"m1"` present in the cache and its disposal
call throwing, `removeModel "m1"` returns `false` and the cache entry is
still present afterwards — the `loadedModels.delete` sits after the
`await model.dispose()` in the same try block, so the catch path skips
it.  This refutes "the cache entry is removed even when the underlying
asset disposal call throws ... the id is never still present". -/
theorem claim_C2_counterexample :
    (removeModel ⟨true, [("m1", stickyModel)], none⟩ "m1").1 = false ∧
    (mapGet (removeModel ⟨true, [("m1", stickyModel)], none⟩ "m1").2.loadedModels
      "m1").isSome = true := by
  constructor <;> rfl

theorem getModel_cache_hit (st : ServiceState) (k : String) (m : EngineModel)
    (h : mapGet st.loadedModels k = some m) : getModel st k = (some m, st) := by
  unfold getModel
  rw [h]

/-- Detaching clears every parent pointer of the model. -/
theorem detachModel_not_attached (m : EngineModel) :
    (detachModel m).attached = false := by
  unfold detachModel EngineModel.attached
  simp only [Bool.or_eq_false_iff]
  constructor
  · cases m.object <;> simp
  · rw [List.any_eq_false]
    intro p hp
    rcases List.mem_map.mp hp with ⟨q, _, rfl⟩
    cases q.2.mesh <;> simp

/-- C2 amended: for every id in the cache, `removeModel` detaches the
model's sub-objects; when disposal does not throw it evicts the entry and
returns `true`, but when the asset's `dispose` throws, the error is
caught (reported as a warning) and `removeModel` returns `false` with the
— detached — entry still in the cache. -/
theorem claim_C2_removeModel_dispose (st : ServiceState) (modelId : String)
    (m : EngineModel) (h : mapGet st.loadedModels modelId = some m) :
    ((m.hasDispose && m.disposeThrows) = false →
      (removeModel st modelId).1 = true ∧
      mapGet (removeModel st modelId).2.loadedModels modelId = none) ∧
    ((m.hasDispose && m.disposeThrows) = true →
      (removeModel st modelId).1 = false ∧
      mapGet (removeModel st modelId).2.loadedModels modelId = some (detachModel m) ∧
      (detachModel m).attached = false) := by
  have hrm : removeModel st modelId =
      (if m.hasDispose && m.disposeThrows then
        (false, overwriteModel st modelId (detachModel m))
      else
        (true, { overwriteModel st modelId (detachModel m) with
                 loadedModels :=
                   mapDelete (overwriteModel st modelId (detachModel m)).loadedModels
                     modelId })) := by
    unfold removeModel
    rw [getModel_cache_hit st modelId m h]
  constructor
  · intro hcond
    rw [hrm]
    simp only [hcond, Bool.false_eq_true, if_false]
    exact ⟨trivial, mapGet_delete_self _ _⟩
  · intro hcond
    rw [hrm]
    simp only [hcond, if_true]
    refine ⟨trivial, ?_, detachModel_not_attached m⟩
    exact mapGet_overwrite_self st.loadedModels modelId (detachModel m) m h

theorem claim_C2_removeModel_dispose_witness :
    (mapGet (⟨true, [("m1", stickyModel)], none⟩ : ServiceState).loadedModels "m1"
        = some stickyModel) ∧
    (stickyModel.hasDispose && stickyModel.disposeThrows) = true ∧
    ((removeModel ⟨true, [("m1", stickyModel)], none⟩ "m1").1 = false ∧
      mapGet (removeModel ⟨true, [("m1", stickyModel)], none⟩ "m1").2.loadedModels "m1"
        = some (detachModel stickyModel) ∧
      (detachModel stickyModel).attached = false) := by
  refine ⟨by rfl, by rfl, ?_⟩
  exact (claim_C2_removeModel_dispose ⟨true, [("m1", stickyModel)], none⟩ "m1" stickyModel
    (by rfl)).2 (by rfl)

/-! ### Eviction on load (C3) -/

/-- A fresh, not-yet-attached mesh as the engine hands it over. -/
def freshMesh : FragMesh :=
  { userData := none, visible := false, frustumCulled := false, hasParent := false }

/-- A metadata-free fragment with a fresh mesh. -/
def freshFragment : Fragment :=
  { name := none, id := none, mesh := some freshMesh, types := [], fragmentKeys := [] }

/-- An already-loaded, attached model cached under id `"a"`. -/
def attachedModelA : EngineModel :=
  { modelId := "a", object := none, items := [("fa", plainFragment)],
    hasDispose := false, disposeThrows := false }

/-- The engine's result for a second load, id `"b"`. -/
def engineModelB : EngineModel :=
  { modelId := "b", object := none, items := [("fb", freshFragment)],
    hasDispose := false, disposeThrows := false }

/-- C3 counterexample: `loadIfc` itself evicts nothing.  Starting from a
state whose cache holds the attached model `"a"`, a successful `loadIfc`
of model `"b"` leaves **two** cached models, both with geometry attached
to the scene — refuting "each loadModel fully evicts the previously
active model ... so at every point at most one model's geometry is
attached". -/
theorem claim_C3_counterexample :
    (loadIfc ⟨true, [("a", attachedModelA)], none⟩ [1] "model-b" (fun _ => .ok ())
        (.ok (some engineModelB))).1 = .ok "b" ∧
    (getAllModels (loadIfc ⟨true, [("a", attachedModelA)], none⟩ [1] "model-b"
        (fun _ => .ok ()) (.ok (some engineModelB))).2).length = 2 ∧
    (getAllModels (loadIfc ⟨true, [("a", attachedModelA)], none⟩ [1] "model-b"
        (fun _ => .ok ()) (.ok (some engineModelB))).2).all
      (fun m => m.attached) = true := by
  refine ⟨rfl, rfl, rfl⟩

theorem mapGet_map_overwrite_ne (l : List (String × EngineModel)) (k : String)
    (v : EngineModel) (q : String) (hne : q ≠ k) :
    mapGet (l.map (fun p => if p.1 = k then (k, v) else p)) q = mapGet l q := by
  induction l with
  | nil => rfl
  | cons p ps ih =>
    by_cases hk : p.1 = k
    · rw [List.map_cons, if_pos hk, mapGet, if_neg (fun h => hne h.symm), mapGet,
        if_neg (fun h => hne (hk ▸ h).symm)]
      · exact ih
    · rw [List.map_cons, if_neg hk, mapGet, mapGet]
      by_cases hq : p.1 = q
      · rw [if_pos hq, if_pos hq]
      · rw [if_neg hq, if_neg hq]
        exact ih

theorem mapGet_append_single_ne (l : List (String × EngineModel)) (k : String)
    (v : EngineModel) (q : String) (hne : q ≠ k) :
    mapGet (l ++ [(k, v)]) q = mapGet l q := by
  induction l with
  | nil =>
    show (if k = q then some v else mapGet [] q) = mapGet [] q
    rw [if_neg (fun h => hne h.symm)]
  | cons p ps ih =>
    rw [List.cons_append, mapGet, mapGet]
    by_cases hq : p.1 = q
    · rw [if_pos hq, if_pos hq]
    · rw [if_neg hq, if_neg hq]
      exact ih

theorem mapGet_set_isSome (l : List (String × EngineModel)) (k : String)
    (v : EngineModel) (q : String) (h : (mapGet l q).isSome = true) :
    (mapGet (mapSet l k v) q).isSome = true := by
  by_cases hq : q = k
  · subst hq
    rw [mapGet_set_self]
    rfl
  · unfold mapSet
    split
    · rw [mapGet_map_overwrite_ne l k v q hq]
      exact h
    · rw [mapGet_append_single_ne l k v q hq]
      exact h

theorem mapSet_length_le (l : List (String × EngineModel)) (k : String) (v : EngineModel) :
    (mapSet l k v).length ≤ l.length + 1 := by
  unfold mapSet
  split
  · rw [List.length_map]
    omega
  · rw [List.length_append]
    simp

/-- The cache after `loadIfc` is either the cache before, or the cache
before with the new model written under its id. -/
theorem loadIfc_cache_cases (st : ServiceState) (buffer : List Nat) (name : String)
    (onProgress : Nat → Except String Unit) (engine : Except String (Option EngineModel)) :
    (loadIfc st buffer name onProgress engine).2.loadedModels = st.loadedModels ∨
    ∃ m, engine = .ok (some m) ∧
      (loadIfc st buffer name onProgress engine).2.loadedModels
        = mapSet st.loadedModels m.modelId (addFragmentsToScene m).1 := by
  by_cases h1 : st.initialized = false
  · left
    unfold loadIfc
    simp [h1]
  have h1' : st.initialized = true := by
    revert h1
    cases st.initialized <;> simp
  by_cases h2 : buffer.length = 0
  · left
    unfold loadIfc
    simp [h1', h2]
  by_cases h3 : name = ""
  · left
    unfold loadIfc
    simp [h1', h2, h3]
  rcases h0 : onProgress 0 with e0 | u0
  · left
    unfold loadIfc
    simp [h1', h2, h3, h0]
  rcases heng : engine with e | om
  · left
    unfold loadIfc
    simp [h1', h2, h3, h0]
  rcases om with _ | m
  · left
    unfold loadIfc
    simp [h1', h2, h3, h0]
  by_cases h4 : m.modelId = ""
  · left
    unfold loadIfc
    simp [h1', h2, h3, h0, h4]
  rcases haddf : addFragmentsToScene m with ⟨m', cnt⟩
  rcases h100 : onProgress 100 with e1 | u1
  · refine Or.inr ⟨m, rfl, ?_⟩
    unfold loadIfc
    simp [h1', h2, h3, h0, h4, haddf, h100]
  · refine Or.inr ⟨m, rfl, ?_⟩
    unfold loadIfc
    simp [h1', h2, h3, h0, h4, haddf, h100]

/-- C3 amended: `loadIfc` itself performs no eviction — every cache entry
present before a `loadIfc` call is still present afterwards.  The
eviction belongs to the caller: the viewer's load path
(`clearPreviousModel`, i.e. `removeModel` on the current model's UUID,
then `loadIfc`), run from a state whose cache holds exactly the current
model with a non-throwing dispose, ends with at most one cached model. -/
theorem claim_C3_loadIfc_no_eviction (st : ServiceState) (buffer : List Nat)
    (name : String) (onProgress : Nat → Except String Unit)
    (engine : Except String (Option EngineModel)) (k : String)
    (hk : (mapGet st.loadedModels k).isSome = true)
    (uuid : String) (m : EngineModel) (ml : Option (List (String × EngineModel)))
    (hdisp : (m.hasDispose && m.disposeThrows) = false) :
    (mapGet (loadIfc st buffer name onProgress engine).2.loadedModels k).isSome = true ∧
    ((loadIfcFileFlow ⟨true, [(uuid, m)], ml⟩ (some uuid) buffer name onProgress
        engine).2.loadedModels).length ≤ 1 := by
  constructor
  · rcases loadIfc_cache_cases st buffer name onProgress engine with hc | ⟨m', _, hc⟩
    · rw [hc]
      exact hk
    · rw [hc]
      exact mapGet_set_isSome _ _ _ _ hk
  · have hrm : (removeModel ⟨true, [(uuid, m)], ml⟩ uuid).2.loadedModels = [] := by
      unfold removeModel
      rw [getModel_cache_hit ⟨true, [(uuid, m)], ml⟩ uuid m (by simp [mapGet])]
      simp [hdisp, overwriteModel, mapDelete]
    show ((loadIfc (removeModel ⟨true, [(uuid, m)], ml⟩ uuid).2 buffer name onProgress
        engine).2.loadedModels).length ≤ 1
    rcases loadIfc_cache_cases (removeModel ⟨true, [(uuid, m)], ml⟩ uuid).2 buffer name
        onProgress engine with hc | ⟨m', _, hc⟩
    · rw [hc, hrm]
      simp
    · rw [hc, hrm]
      simp [mapSet]

theorem claim_C3_loadIfc_no_eviction_witness :
    ((mapGet (⟨true, [("a", attachedModelA)], none⟩ : ServiceState).loadedModels "a").isSome
        = true) ∧
    ((attachedModelA.hasDispose && attachedModelA.disposeThrows) = false) ∧
    ((mapGet (loadIfc ⟨true, [("a", attachedModelA)], none⟩ [1] "model-b"
        (fun _ => .ok ()) (.ok (some engineModelB))).2.loadedModels "a").isSome = true ∧
      ((loadIfcFileFlow ⟨true, [("a", attachedModelA)], none⟩ (some "a") [1] "model-b"
          (fun _ => .ok ()) (.ok (some engineModelB))).2.loadedModels).length ≤ 1) := by
  refine ⟨rfl, rfl, ?_⟩
  exact claim_C3_loadIfc_no_eviction ⟨true, [("a", attachedModelA)], none⟩ [1] "model-b"
    (fun _ => .ok ()) (.ok (some engineModelB)) "a" rfl "a" attachedModelA none rfl

/-! ### State after a failing load (C4) -/

/-- A progress callback that throws when the final 100% report runs. -/
def throwAtEnd : Nat → Except String Unit :=
  fun n => if n = 100 then .error "callback failed" else .ok ()

/-- C4 counterexample: `loadIfc` performs no cleanup on failure.  With a
callback that throws at the final progress report — which runs after the
fragments were attached and after the model was stored in the cache — the
call rejects, yet the model's sub-objects remain attached to the scene
and the cache keeps the entry.  This refutes "every sub-object attached
during that call is detached and disposed before the error propagates,
and the failed model is left absent from the cache". -/
theorem claim_C4_counterexample :
    (loadIfc ⟨true, [], none⟩ [1] "m" throwAtEnd (.ok (some engineModelB))).1
        = .error (wrapLoadError "m" "callback failed") ∧
    (mapGet (loadIfc ⟨true, [], none⟩ [1] "m" throwAtEnd
        (.ok (some engineModelB))).2.loadedModels "b").isSome = true ∧
    (getAllModels (loadIfc ⟨true, [], none⟩ [1] "m" throwAtEnd
        (.ok (some engineModelB))).2).any (fun m => m.attached) = true := by
  refine ⟨rfl, rfl, rfl⟩

/-- C4 amended: `loadIfc` never cleans up after itself.  Failures before
attachment (a failing engine call, in particular) leave the whole service
state untouched — nothing was attached, no cache entry exists.  But the
model is attached and stored in the cache *before* the final progress
report, so the one failure point after attachment (a throwing progress
callback) propagates the wrapped error while leaving the attached model
in the cache. -/
theorem claim_C4_loadIfc_failure_state (st : ServiceState) (buffer : List Nat)
    (name : String) (onProgress : Nat → Except String Unit) :
    (∀ e, (loadIfc st buffer name onProgress (.error e)).2 = st) ∧
    (∀ m e, st.initialized = true → buffer.length ≠ 0 → name ≠ "" → m.modelId ≠ "" →
      onProgress 0 = .ok () → onProgress 100 = .error e →
      (loadIfc st buffer name onProgress (.ok (some m))).1
          = .error (wrapLoadError name e) ∧
      mapGet (loadIfc st buffer name onProgress (.ok (some m))).2.loadedModels m.modelId
          = some (addFragmentsToScene m).1) := by
  constructor
  · intro e
    by_cases h1 : st.initialized = false
    · unfold loadIfc
      simp [h1]
    have h1' : st.initialized = true := by
      revert h1
      cases st.initialized <;> simp
    by_cases h2 : buffer.length = 0
    · unfold loadIfc
      simp [h1', h2]
    by_cases h3 : name = ""
    · unfold loadIfc
      simp [h1', h2, h3]
    rcases h0 : onProgress 0 with e0 | u0 <;>
      · unfold loadIfc
        simp [h1', h2, h3, h0]
  · intro m e h1 h2 h3 h4 h0 h100
    rcases haddf : addFragmentsToScene m with ⟨m', cnt⟩
    have hload : loadIfc st buffer name onProgress (.ok (some m))
        = (.error (wrapLoadError name e),
           { st with loadedModels := mapSet st.loadedModels m.modelId m' }) := by
      unfold loadIfc
      simp [h1, h2, h3, h4, h0, h100, haddf]
    rw [hload]
    refine ⟨rfl, ?_⟩
    show mapGet (mapSet st.loadedModels m.modelId m') m.modelId = some (m', cnt).1
    rw [mapGet_set_self]

theorem claim_C4_loadIfc_failure_state_witness :
    ((loadIfc ⟨true, [], none⟩ [1] "m" throwAtEnd (.error "engine down")).2
        = ⟨true, [], none⟩) ∧
    ((⟨true, [], none⟩ : ServiceState).initialized = true ∧
      ([1] : List Nat).length ≠ 0 ∧ ("m" : String) ≠ "" ∧ engineModelB.modelId ≠ "" ∧
      throwAtEnd 0 = .ok () ∧ throwAtEnd 100 = .error "callback failed") ∧
    ((loadIfc ⟨true, [], none⟩ [1] "m" throwAtEnd (.ok (some engineModelB))).1
        = .error (wrapLoadError "m" "callback failed") ∧
      mapGet (loadIfc ⟨true, [], none⟩ [1] "m" throwAtEnd
          (.ok (some engineModelB))).2.loadedModels engineModelB.modelId
        = some (addFragmentsToScene engineModelB).1) := by
  refine ⟨?_, ⟨rfl, by decide, by decide, by decide, rfl, rfl⟩, ?_⟩
  · exact (claim_C4_loadIfc_failure_state ⟨true, [], none⟩ [1] "m" throwAtEnd).1
      "engine down"
  · exact (claim_C4_loadIfc_failure_state ⟨true, [], none⟩ [1] "m" throwAtEnd).2
      engineModelB "callback failed" rfl (by decide) (by decide) (by decide) rfl rfl

/-! ### Model statistics (C5) -/

/-- The drawable sub-objects visited by the statistics traversal. -/
def meshNodes (o : Obj3D) : List NodeData :=
  o.flatten.filter (fun d => d.isMeshLike)

/-- Position-attribute count of one sub-object (0 when absent). -/
def specVertexCount (d : NodeData) : Nat :=
  match d.geometry with
  | some g => (g.position.map BufAttr.count).getD 0
  | none => 0

/-- Exact face contribution of one sub-object: index-buffer count over 3
when indexed, else position count over 3. -/
def specFaceQ (d : NodeData) : ℚ :=
  match d.geometry with
  | some g =>
    match g.index with
    | some i => (i.count : ℚ) / 3
    | none => (((g.position.map BufAttr.count).getD 0 : Nat) : ℚ) / 3
  | none => 0

theorem stats_foldl_eq (l : List NodeData) (a : Nat × Nat × ℚ × Nat) :
    l.foldl (fun (a : Nat × Nat × ℚ × Nat) d =>
        let c := statContribution d
        (a.1 + c.1, a.2.1 + c.2.1, a.2.2.1 + c.2.2.1, a.2.2.2 + c.2.2.2)) a
      = (a.1 + (l.map (fun d => (statContribution d).1)).sum,
         a.2.1 + (l.map (fun d => (statContribution d).2.1)).sum,
         a.2.2.1 + (l.map (fun d => (statContribution d).2.2.1)).sum,
         a.2.2.2 + (l.map (fun d => (statContribution d).2.2.2)).sum) := by
  induction l generalizing a with
  | nil => simp
  | cons d ds ih =>
    simp only [List.foldl_cons, List.map_cons, List.sum_cons]
    rw [ih]
    simp only [Prod.mk.injEq]
    refine ⟨by omega, by omega, by ring, by omega⟩

/-- `calculateModelStatistics` as componentwise sums over the flattened
tree, with the face total floored once at the end. -/
theorem calculateModelStatistics_eq (o : Obj3D) :
    calculateModelStatistics o =
      { meshCount := (o.flatten.map (fun d => (statContribution d).1)).sum,
        vertexCount := (o.flatten.map (fun d => (statContribution d).2.1)).sum,
        faceCount := ⌊(o.flatten.map (fun d => (statContribution d).2.2.1)).sum⌋,
        fragmentCount := (o.flatten.map (fun d => (statContribution d).2.2.2)).sum } := by
  unfold calculateModelStatistics
  rw [stats_foldl_eq]
  simp

theorem sum_map_filter_meshLike {M : Type} [AddCommMonoid M] (l : List NodeData)
    (f : NodeData → M) (hf : ∀ d, d.isMeshLike = false → f d = 0) :
    (l.map f).sum = ((l.filter (fun d => d.isMeshLike)).map f).sum := by
  induction l with
  | nil => rfl
  | cons d ds ih =>
    by_cases h : d.isMeshLike = true
    · simp [List.filter_cons, h, ih]
    · have h' : d.isMeshLike = false := by
        revert h
        cases d.isMeshLike <;> simp
      simp [List.filter_cons, h', hf d h', ih]

theorem sum_map_one_nd (l : List NodeData) : (l.map (fun _ => (1 : Nat))).sum = l.length := by
  induction l with
  | nil => rfl
  | cons d ds ih => simp [ih, Nat.add_comm]

theorem sum_map_ite_instanced (l : List NodeData) :
    (l.map (fun d => if d.kind = NodeKind.instancedMesh then (1 : Nat) else 0)).sum
      = (l.filter (fun d => d.kind = NodeKind.instancedMesh)).length := by
  induction l with
  | nil => rfl
  | cons d ds ih =>
    by_cases h : d.kind = NodeKind.instancedMesh <;>
      simp [List.filter_cons, h, ih, Nat.add_comm]

theorem statContribution_fst (d : NodeData) :
    (statContribution d).1 = if d.isMeshLike then 1 else 0 := by
  rcases d with ⟨kind, vis, geo, mat⟩
  unfold statContribution
  by_cases h : NodeData.isMeshLike ⟨kind, vis, geo, mat⟩ = true
  · rw [if_pos h, if_pos h]
    cases geo <;> rfl
  · rw [if_neg h, if_neg h]

theorem statContribution_vertex (d : NodeData) :
    (statContribution d).2.1 = if d.isMeshLike then specVertexCount d else 0 := by
  rcases d with ⟨kind, vis, geo, mat⟩
  unfold statContribution specVertexCount
  by_cases h : NodeData.isMeshLike ⟨kind, vis, geo, mat⟩ = true
  · rw [if_pos h, if_pos h]
    cases geo <;> rfl
  · rw [if_neg h, if_neg h]

theorem statContribution_face (d : NodeData) :
    (statContribution d).2.2.1 = if d.isMeshLike then specFaceQ d else 0 := by
  rcases d with ⟨kind, vis, geo, mat⟩
  unfold statContribution specFaceQ
  by_cases h : NodeData.isMeshLike ⟨kind, vis, geo, mat⟩ = true
  · rw [if_pos h, if_pos h]
    rcases geo with _ | ⟨pos, idx⟩
    · rfl
    · rcases idx with _ | i
      · rcases pos with _ | p <;> simp
      · rfl
  · rw [if_neg h, if_neg h]

theorem statContribution_frag (d : NodeData) (hg : d.geometry.isSome = true) :
    (statContribution d).2.2.2
      = if d.isMeshLike then (if d.kind = NodeKind.instancedMesh then 1 else 0) else 0 := by
  rcases d with ⟨kind, vis, geo, mat⟩
  unfold statContribution
  by_cases h : NodeData.isMeshLike ⟨kind, vis, geo, mat⟩ = true
  · rw [if_pos h, if_pos h]
    rcases geo with _ | g
    · exact absurd hg (by simp)
    · rfl
  · rw [if_neg h, if_neg h]

theorem statContribution_frag_zero (d : NodeData) (h : d.isMeshLike = false) :
    (statContribution d).2.2.2 = 0 := by
  unfold statContribution
  rw [if_neg (by simp [h])]

/-- C5 amended: under the claim's hypothesis that each drawable sub-object
carries geometry, `calculateModelStatistics` returns `meshCount` equal to
the number of drawable sub-objects, `vertexCount` equal to the summed
position-attribute counts, `fragmentCount` equal to the number of
instanced sub-objects, and `faceCount` equal to the floor of the **sum**
of the exact per-sub-object contributions (index-count/3 resp.
position-count/3) — the truncation is applied once to the total, not to
each contribution. -/
theorem claim_C5_statistics (o : Obj3D)
    (hgeom : ∀ d ∈ meshNodes o, d.geometry.isSome = true) :
    (calculateModelStatistics o).meshCount = (meshNodes o).length ∧
    (calculateModelStatistics o).vertexCount = ((meshNodes o).map specVertexCount).sum ∧
    (calculateModelStatistics o).faceCount = ⌊((meshNodes o).map specFaceQ).sum⌋ ∧
    (calculateModelStatistics o).fragmentCount
      = ((meshNodes o).filter (fun d => d.kind = NodeKind.instancedMesh)).length := by
  rw [calculateModelStatistics_eq]
  refine ⟨?_, ?_, ?_, ?_⟩
  · show (o.flatten.map (fun d => (statContribution d).1)).sum = (meshNodes o).length
    rw [sum_map_filter_meshLike _ _ (fun d hd => by rw [statContribution_fst, if_neg (by simp [hd])])]
    rw [← sum_map_one_nd (meshNodes o)]
    refine congrArg List.sum (List.map_congr_left ?_)
    intro d hd
    rw [statContribution_fst, if_pos (List.of_mem_filter hd)]
  · show (o.flatten.map (fun d => (statContribution d).2.1)).sum
        = ((meshNodes o).map specVertexCount).sum
    rw [sum_map_filter_meshLike _ _
      (fun d hd => by rw [statContribution_vertex, if_neg (by simp [hd])])]
    refine congrArg List.sum (List.map_congr_left ?_)
    intro d hd
    rw [statContribution_vertex, if_pos (List.of_mem_filter hd)]
  · show (⌊(o.flatten.map (fun d => (statContribution d).2.2.1)).sum⌋ : ℤ)
        = ⌊((meshNodes o).map specFaceQ).sum⌋
    refine congrArg _ ?_
    rw [sum_map_filter_meshLike _ _
      (fun d hd => by rw [statContribution_face, if_neg (by simp [hd])])]
    refine congrArg List.sum (List.map_congr_left ?_)
    intro d hd
    rw [statContribution_face, if_pos (List.of_mem_filter hd)]
  · show (o.flatten.map (fun d => (statContribution d).2.2.2)).sum
        = ((meshNodes o).filter (fun d => d.kind = NodeKind.instancedMesh)).length
    rw [sum_map_filter_meshLike _ _ (fun d hd => statContribution_frag_zero d hd)]
    rw [← sum_map_ite_instanced (meshNodes o)]
    refine congrArg List.sum (List.map_congr_left ?_)
    intro d hd
    rw [statContribution_frag d (hgeom d hd), if_pos (List.of_mem_filter hd)]

/-- Node data of a drawable sub-object with `n` unindexed vertices. -/
def unindexedMeshData (n : Nat) : NodeData :=
  { kind := .mesh, visible := true,
    geometry := some { position := some { count := n }, index := none },
    material := [] }

/-- A drawable sub-object with `n` unindexed vertices. -/
def unindexedMesh (n : Nat) : Obj3D :=
  .node (unindexedMeshData n) []

/-- A non-drawable group node. -/
def groupNodeData : NodeData :=
  { kind := .other, visible := true, geometry := none, material := [] }

/-- A root group holding a 1-vertex and a 2-vertex unindexed mesh. -/
def twoMeshScene : Obj3D :=
  .node groupNodeData [unindexedMesh 1, unindexedMesh 2]

/-- C5 counterexample: the code sums the exact contributions 1/3 and 2/3
and floors the total, returning `faceCount = 1`; truncating each
per-sub-object contribution, as the claim states, would give 0 + 0 = 0. -/
theorem claim_C5_counterexample :
    (calculateModelStatistics twoMeshScene).faceCount = 1 ∧
    ((meshNodes twoMeshScene).map (fun d => ⌊specFaceQ d⌋)).sum = 0 := by
  constructor
  · rw [calculateModelStatistics_eq]
    show (⌊((twoMeshScene.flatten).map (fun d => (statContribution d).2.2.1)).sum⌋ : ℤ) = 1
    have hflat : twoMeshScene.flatten
        = [groupNodeData, unindexedMeshData 1, unindexedMeshData 2] := rfl
    have h0 : (statContribution groupNodeData).2.2.1 = 0 := rfl
    have h1 : (statContribution (unindexedMeshData 1)).2.2.1 = ((1 : Nat) : ℚ) / 3 := rfl
    have h2 : (statContribution (unindexedMeshData 2)).2.2.1 = ((2 : Nat) : ℚ) / 3 := rfl
    rw [hflat]
    simp only [List.map_cons, List.map_nil, List.sum_cons, List.sum_nil, h0, h1, h2]
    norm_num
  · have hmesh : meshNodes twoMeshScene
        = [unindexedMeshData 1, unindexedMeshData 2] := rfl
    have g1 : specFaceQ (unindexedMeshData 1) = ((1 : Nat) : ℚ) / 3 := rfl
    have g2 : specFaceQ (unindexedMeshData 2) = ((2 : Nat) : ℚ) / 3 := rfl
    rw [hmesh]
    simp only [List.map_cons, List.map_nil, List.sum_cons, List.sum_nil, g1, g2]
    norm_num

theorem claim_C5_statistics_witness :
    (∀ d ∈ meshNodes twoMeshScene, d.geometry.isSome = true) ∧
    ((calculateModelStatistics twoMeshScene).meshCount = (meshNodes twoMeshScene).length ∧
      (calculateModelStatistics twoMeshScene).vertexCount
        = ((meshNodes twoMeshScene).map specVertexCount).sum ∧
      (calculateModelStatistics twoMeshScene).faceCount
        = ⌊((meshNodes twoMeshScene).map specFaceQ).sum⌋ ∧
      (calculateModelStatistics twoMeshScene).fragmentCount
        = ((meshNodes twoMeshScene).filter
            (fun d => d.kind = NodeKind.instancedMesh)).length) := by
  refine ⟨by decide, claim_C5_statistics twoMeshScene (by decide)⟩

/-! ### Material fixing (C8) -/

/-- The `needsFix` test of `fixMaterials`, as a predicate on one
material. -/
def matNeedsFix (m : Mat) : Bool :=
  !m.visible || m.side == 0 || (m.transparent && m.opacity == 0)

/-- Number of non-null materials of a slot list failing the `needsFix`
test. -/
def matFixCount : List (Option Mat) → Nat
  | [] => 0
  | none :: ms => matFixCount ms
  | some m :: ms => (if matNeedsFix m then 1 else 0) + matFixCount ms

/-- Corrections one node receives: its failing materials plus one when the
mesh itself was invisible; non-drawable nodes receive none. -/
def nodeFixCount (d : NodeData) : Nat :=
  if d.isMeshLike then matFixCount d.material + (if !d.visible then 1 else 0) else 0

def specFixCount (o : Obj3D) : Nat :=
  (o.flatten.map nodeFixCount).sum

theorem fixOneMaterial_eq (m : Mat) :
    fixOneMaterial m
      = (if (!m.visible || m.side == 0 || (m.transparent && m.opacity == 0)) = true then
          ((if (m.transparent && m.opacity == 0) = true then
            ({ visible := true, side := 2, transparent := false, opacity := 1,
               needsUpdate := true } : Mat)
          else
            { visible := true, side := 2, transparent := m.transparent,
              opacity := m.opacity, needsUpdate := true }), 1)
        else (m, 0)) := rfl

theorem fixOneMaterial_snd (m : Mat) :
    (fixOneMaterial m).2 = if matNeedsFix m then 1 else 0 := by
  rw [fixOneMaterial_eq]
  unfold matNeedsFix
  by_cases hf : (!m.visible || m.side == 0 || (m.transparent && m.opacity == 0)) = true
  · rw [if_pos hf, if_pos hf]
  · rw [if_neg hf, if_neg hf]

theorem fixOneMaterial_visible (m : Mat) : (fixOneMaterial m).1.visible = true := by
  rw [fixOneMaterial_eq]
  by_cases hf : (!m.visible || m.side == 0 || (m.transparent && m.opacity == 0)) = true
  · rw [if_pos hf]
    by_cases ht : (m.transparent && m.opacity == 0) = true
    · rw [if_pos ht]
    · rw [if_neg ht]
  · rw [if_neg hf]
    show m.visible = true
    rcases hv : m.visible with _ | _
    · refine absurd ?_ hf
      rw [hv]
      simp
    · rfl

theorem fixOneMaterial_side (m : Mat) : (fixOneMaterial m).1.side ≠ 0 := by
  rw [fixOneMaterial_eq]
  by_cases hf : (!m.visible || m.side == 0 || (m.transparent && m.opacity == 0)) = true
  · rw [if_pos hf]
    by_cases ht : (m.transparent && m.opacity == 0) = true
    · rw [if_pos ht]
      simp
    · rw [if_neg ht]
      simp
  · rw [if_neg hf]
    have h := hf
    simp only [Bool.or_eq_true, not_or, beq_iff_eq] at h
    exact h.1.2

theorem fixOneMaterial_opaque (m : Mat) :
    ¬((fixOneMaterial m).1.transparent = true ∧ (fixOneMaterial m).1.opacity = 0) := by
  rw [fixOneMaterial_eq]
  by_cases hf : (!m.visible || m.side == 0 || (m.transparent && m.opacity == 0)) = true
  · rw [if_pos hf]
    by_cases ht : (m.transparent && m.opacity == 0) = true
    · rw [if_pos ht]
      intro hc
      exact Bool.false_ne_true hc.1
    · rw [if_neg ht]
      have h := ht
      simp only [Bool.and_eq_true, beq_iff_eq, not_and] at h
      intro hc
      exact h hc.1 hc.2
  · rw [if_neg hf]
    have h := hf
    simp only [Bool.or_eq_true, not_or, Bool.and_eq_true, beq_iff_eq, not_and] at h
    intro hc
    exact h.2 hc.1 hc.2

theorem fixMaterialList_snd (l : List (Option Mat)) :
    (fixMaterialList l).2 = matFixCount l := by
  induction l with
  | nil => rfl
  | cons om ms ih =>
    rcases om with _ | m
    · rcases hms : fixMaterialList ms with ⟨ms', n⟩
      rw [hms] at ih
      simp [fixMaterialList, hms, matFixCount, ih]
    · rcases hm : fixOneMaterial m with ⟨m', k⟩
      rcases hms : fixMaterialList ms with ⟨ms', n⟩
      rw [hms] at ih
      have hk := fixOneMaterial_snd m
      rw [hm] at hk
      simp [fixMaterialList, hm, hms, matFixCount, ih, hk]

theorem mem_fixMaterialList (l : List (Option Mat)) (om : Option Mat)
    (h : om ∈ (fixMaterialList l).1) :
    om = none ∨ ∃ m, om = some (fixOneMaterial m).1 := by
  induction l with
  | nil => simp [fixMaterialList] at h
  | cons om0 ms ih =>
    rcases om0 with _ | m
    · rcases hms : fixMaterialList ms with ⟨ms', n⟩
      rw [hms] at ih
      rw [fixMaterialList, hms] at h
      rcases List.mem_cons.mp h with h1 | h1
      · exact Or.inl h1
      · exact ih h1
    · rcases hm : fixOneMaterial m with ⟨m', k⟩
      rcases hms : fixMaterialList ms with ⟨ms', n⟩
      rw [hms] at ih
      rw [fixMaterialList, hm, hms] at h
      rcases List.mem_cons.mp h with h1 | h1
      · refine Or.inr ⟨m, ?_⟩
        rw [h1, hm]
      · exact ih h1

theorem fixNode_fst (d : NodeData) :
    (fixNode d).1
      = if d.isMeshLike then
          { d with material := (fixMaterialList d.material).1, visible := true }
        else d := by
  unfold fixNode
  by_cases h : d.isMeshLike = true
  · rcases hm : fixMaterialList d.material with ⟨ms, n⟩
    rcases hv : d.visible with _ | _ <;> simp [h, hm, hv]
  · simp [h]

theorem fixNode_snd (d : NodeData) : (fixNode d).2 = nodeFixCount d := by
  unfold fixNode nodeFixCount
  by_cases h : d.isMeshLike = true
  · rcases hm : fixMaterialList d.material with ⟨ms, n⟩
    have hn : n = matFixCount d.material := fixMaterialList_snd d.material ▸ congrArg Prod.snd hm.symm
    rcases hv : d.visible with _ | _ <;> simp [h, hm, hv, hn]
  · simp [h]

mutual

theorem snd_fixMaterials : ∀ (o : Obj3D),
    (fixMaterials o).2 = (o.flatten.map (fun d => (fixNode d).2)).sum
  | .node d cs => by
    rcases hd : fixNode d with ⟨d', n⟩
    rcases hcs : fixMaterialsList cs with ⟨cs', k⟩
    have h := snd_fixMaterialsList cs
    rw [hcs] at h
    simp [fixMaterials, hd, hcs, Obj3D.flatten, h]

theorem snd_fixMaterialsList : ∀ (l : List Obj3D),
    (fixMaterialsList l).2 = ((flattenList l).map (fun d => (fixNode d).2)).sum
  | [] => rfl
  | o :: os => by
    rcases ho : fixMaterials o with ⟨o', n⟩
    rcases hos : fixMaterialsList os with ⟨os', k⟩
    have h1 := snd_fixMaterials o
    have h2 := snd_fixMaterialsList os
    rw [ho] at h1
    rw [hos] at h2
    simp [fixMaterialsList, ho, hos, flattenList, h1, h2]

end

mutual

theorem flatten_fixMaterials : ∀ (o : Obj3D),
    (fixMaterials o).1.flatten = o.flatten.map (fun d => (fixNode d).1)
  | .node d cs => by
    rcases hd : fixNode d with ⟨d', n⟩
    rcases hcs : fixMaterialsList cs with ⟨cs', k⟩
    have h := flattenList_fixMaterialsList cs
    rw [hcs] at h
    simp [fixMaterials, hd, hcs, Obj3D.flatten, h]

theorem flattenList_fixMaterialsList : ∀ (l : List Obj3D),
    flattenList (fixMaterialsList l).1 = (flattenList l).map (fun d => (fixNode d).1)
  | [] => rfl
  | o :: os => by
    rcases ho : fixMaterials o with ⟨o', n⟩
    rcases hos : fixMaterialsList os with ⟨os', k⟩
    have h1 := flatten_fixMaterials o
    have h2 := flattenList_fixMaterialsList os
    rw [ho] at h1
    rw [hos] at h2
    simp [fixMaterialsList, ho, hos, flattenList, h1, h2]

end

/-- C8 amended: after `fixMaterials`, every drawable sub-object is
visible, every one of its materials is visible, none is front-sided
(`side = 0`) — a material that was front-sided became double-sided, but a
back-sided one is left back-sided — and none is transparent with zero
opacity; the returned count equals the number of materials failing the
`needsFix` test (invisible, front-sided, or transparent-with-zero-opacity)
plus the number of invisible drawable sub-objects.  A visible back-sided
material is not in the claim's "desired state" yet is neither corrected
nor counted. -/
theorem claim_C8_fixMaterials (o : Obj3D) :
    (fixMaterials o).2 = specFixCount o ∧
    (∀ d ∈ (fixMaterials o).1.flatten, d.isMeshLike = true →
      d.visible = true ∧
      ∀ m : Mat, some m ∈ d.material →
        m.visible = true ∧ m.side ≠ 0 ∧ ¬(m.transparent = true ∧ m.opacity = 0)) := by
  constructor
  · rw [snd_fixMaterials, specFixCount]
    refine congrArg List.sum (List.map_congr_left ?_)
    intro d _
    exact fixNode_snd d
  · intro d hd hmesh
    rw [flatten_fixMaterials] at hd
    rcases List.mem_map.mp hd with ⟨d0, _, rfl⟩
    have hkind : (fixNode d0).1.kind = d0.kind := by
      rw [fixNode_fst]
      split <;> rfl
    have hmesh0 : d0.isMeshLike = true := by
      unfold NodeData.isMeshLike at hmesh ⊢
      rw [hkind] at hmesh
      exact hmesh
    rw [fixNode_fst, if_pos hmesh0]
    refine ⟨rfl, ?_⟩
    intro m hm
    rcases mem_fixMaterialList d0.material (some m) hm with h1 | ⟨m0, h1⟩
    · exact absurd h1 (by simp)
    · have hm0 : m = (fixOneMaterial m0).1 := by
        injection h1
      rw [hm0]
      exact ⟨fixOneMaterial_visible m0, fixOneMaterial_side m0, fixOneMaterial_opaque m0⟩

/-- An invisible, front-sided, transparent-with-zero-opacity material. -/
def brokenMat : Mat :=
  { visible := false, side := 0, transparent := true, opacity := 0, needsUpdate := false }

/-- An invisible mesh carrying the broken material. -/
def brokenMesh : Obj3D :=
  .node { kind := .mesh, visible := false, geometry := none,
          material := [some brokenMat] } []

def Obj3D.rootNode : Obj3D → NodeData
  | .node d _ => d

theorem claim_C8_fixMaterials_witness :
    (fixMaterials brokenMesh).2 = specFixCount brokenMesh ∧
    (Obj3D.rootNode (fixMaterials brokenMesh).1 ∈ (fixMaterials brokenMesh).1.flatten ∧
      (Obj3D.rootNode (fixMaterials brokenMesh).1).isMeshLike = true) ∧
    (Obj3D.rootNode (fixMaterials brokenMesh).1).visible = true := by
  refine ⟨(claim_C8_fixMaterials brokenMesh).1, ⟨?_, ?_⟩, ?_⟩
  · decide
  · decide
  · exact ((claim_C8_fixMaterials brokenMesh).2
      (Obj3D.rootNode (fixMaterials brokenMesh).1) (by decide) (by decide)).1

/-- A visible, opaque, back-sided material. -/
def backsideMat : Mat :=
  { visible := true, side := 1, transparent := false, opacity := 1, needsUpdate := false }

/-- A visible mesh carrying only the back-sided material. -/
def backsideMesh : Obj3D :=
  .node { kind := .mesh, visible := true, geometry := none,
          material := [some backsideMat] } []

def Obj3D.rootData : Obj3D → NodeData
  | .node d _ => d

/-- C8 counterexample: on a visible mesh whose only material is visible,
opaque and **back-sided**, `fixMaterials` changes nothing and returns 0 —
the material still has `side = 1`, not double-sided (`side = 2`), yet the
claim demands that afterwards every material be double-sided and that the
count include every material that was not already in the desired state. -/
theorem claim_C8_counterexample :
    (fixMaterials backsideMesh).2 = 0 ∧
    Obj3D.rootData (fixMaterials backsideMesh).1
      = { kind := .mesh, visible := true, geometry := none,
          material := [some backsideMat] } ∧
    backsideMat.side ≠ 2 := by
  refine ⟨rfl, rfl, by decide⟩

end SpaceModeller
